import Mathlib

/-!
# Inbound message pipeline of the light client (`client/network/messageHandler.go`)

A shallow embedding of `MessageHandler.HandleConnection`, `ProcessMessage` and the
per-command handlers.  Effects (log lines, channel offers, file writes, store calls,
secondary connections) are recorded as an ordered list of `Event`s.  What the Go code
gets from its surroundings (whether a channel consumer is ready, whether `Connect`
succeeds, what `proto.Unmarshal` returns for the generated `pb` types, the pending
transaction of the store) is an explicit argument.
-/

set_option linter.dupNamespace false

namespace Client

/-! ## Bytes, `encoding/binary` and `io.ReadFull` -/

/-- One byte of the wire. -/
abbrev Byte := Fin 256

/-- Go `binary.LittleEndian.Uint64(b)`:
`uint64(b[0]) | uint64(b[1])<<8 | ... | uint64(b[7])<<56`.  The caller always passes the
8-byte buffer `bLength`; any other length (an index panic in Go) is mapped to 0. -/
def Uint64 (b : List Byte) : Nat :=
  match b with
  | [b0, b1, b2, b3, b4, b5, b6, b7] =>
      b0.val + b1.val * 2 ^ 8 + b2.val * 2 ^ 16 + b3.val * 2 ^ 24 + b4.val * 2 ^ 32
        + b5.val * 2 ^ 40 + b6.val * 2 ^ 48 + b7.val * 2 ^ 56
  | _ => 0

/-- Go `byte(v >> s)`: the low eight bits of `v / 2^s`. -/
def byteOf (v s : Nat) : Byte := ⟨v / 2 ^ s % 256, Nat.mod_lt _ (by decide)⟩

/-- Go `binary.LittleEndian.PutUint64(b, v)` on an 8-byte buffer (used in `main.go`):
`b[i] = byte(v >> (8*i))`. -/
def PutUint64 (v : Nat) : List Byte :=
  [byteOf v 0, byteOf v 8, byteOf v 16, byteOf v 24, byteOf v 32, byteOf v 40,
   byteOf v 48, byteOf v 56]

/-- How the peer's byte stream ends once its bytes are used up: a clean end of stream
(`io.EOF`) or a transport error. -/
inductive StreamEnd where
  | eof
  | fault
  deriving DecidableEq, Repr

/-- The connection as the read loop sees it: the bytes still unread, how the stream ends
after them, and whether `conn.Close()` has been called locally. -/
structure Conn where
  unread : List Byte
  ending : StreamEnd
  closed : Bool
  deriving DecidableEq, Repr

/-- The errors `io.ReadFull` can return, as far as the loop tells them apart. -/
inductive ReadErr where
  | EOF
  | ErrUnexpectedEOF
  | other
  deriving DecidableEq, Repr

/-- Result of `io.ReadFull(conn, buf)`: the bytes placed in `buf`, the count read, the
error, and the connection afterwards. -/
structure ReadResult where
  buf : List Byte
  n : Nat
  err : Option ReadErr
  conn : Conn
  deriving DecidableEq, Repr

/-- Go `io.ReadFull(r, buf)` with `len(buf) = size`, i.e. `ReadAtLeast(r, buf, len(buf))`:
* `size = 0`: the read loop body never runs, result `(0, nil)`, nothing consumed;
* a locally closed connection fails every read with a non-EOF error;
* enough bytes: `(size, nil)`, exactly `size` bytes consumed;
* too few bytes: all of them are consumed; at a clean end the error is `io.EOF` when no
  byte was read and `io.ErrUnexpectedEOF` otherwise; at a fault it is the fault. -/
def ReadFull (c : Conn) (size : Nat) : ReadResult :=
  if size = 0 then ⟨[], 0, none, c⟩
  else if c.closed then ⟨[], 0, some .other, c⟩
  else if size ≤ c.unread.length then
    ⟨c.unread.take size, size, none, { c with unread := c.unread.drop size }⟩
  else
    let e : ReadErr :=
      match c.ending with
      | .eof => if c.unread.length = 0 then .EOF else .ErrUnexpectedEOF
      | .fault => .other
    ⟨c.unread, c.unread.length, some e, { c with unread := [] }⟩

/-! ## The `pb` records the handlers touch -/

/-- Header of `pb.Message`; the dispatcher reads `Command`. -/
structure Header where
  Command : String
  deriving DecidableEq, Repr

/-- The generated `pb.Message`.  `message.Header.Command` shows `Header` is a message-typed
field; protoc-gen-go makes such a field a pointer (the source tests the sibling field
`accountState.SmartContractInfo != nil`), so it can be `nil`: `none` here. -/
structure Message where
  Header : Option Header
  Body : List Byte
  deriving DecidableEq, Repr

/-- The `SmartContractInfo` sub-record of `pb.AccountState`. -/
structure SmartContractInfo where
  StorageHost : String
  deriving DecidableEq, Repr

/-- The generated `pb.AccountState`. -/
structure AccountState where
  Address : List Byte
  Balance : List Byte
  PendingBalance : List Byte
  LastHash : List Byte
  SmartContractInfo : Option SmartContractInfo
  deriving DecidableEq, Repr

/-- The generated `pb.Transaction`, with the fields the handlers read. -/
structure Transaction where
  Hash : List Byte
  FromAddress : List Byte
  ToAddress : List Byte
  Amount : List Byte
  deriving DecidableEq, Repr

/-- The generated `pb.Receipt`. -/
structure Receipt where
  TransactionHash : List Byte
  FromAddress : List Byte
  ToAddress : List Byte
  Amount : List Byte
  Status : Int
  ReturnValue : List Byte
  deriving DecidableEq, Repr

/-- One entry of `pb.Logs`. -/
structure Log where
  Address : List Byte
  Data : List Byte
  Topics : List (List Byte)
  deriving DecidableEq, Repr

/-- The generated `pb.Logs`. -/
structure Logs where
  Logs : List Log
  deriving DecidableEq, Repr

/-- The `SmartContractState` sub-record: code and the storage entries in the order the
`range` loop visits them. -/
structure SmartContractState where
  Code : List Byte
  Storage : List (String × List Byte)
  deriving DecidableEq, Repr

/-- The generated `pb.SmartContractStateResult`; its sub-record is a pointer. -/
structure SmartContractStateResult where
  SmartContractState : Option SmartContractState
  deriving DecidableEq, Repr

/-- Go `&pb.Receipt{}`. -/
def Receipt.zero : Receipt := ⟨[], [], [], [], 0, []⟩

/-- What the handler takes from packages that are not part of the source files: the result
of `proto.Unmarshal` on each generated type, the hash of `cc.GetEmptyTransaction()` and the
command constant `messages.MinerGetSmartContractState`.  `unmarshalMessage` is `none` when
`proto.Unmarshal` returns an error (the only call whose error is looked at); the other
calls ignore the error, so their result is the record as `Unmarshal` left it. -/
structure Proto where
  unmarshalMessage : List Byte → Option Message
  unmarshalAccountState : List Byte → AccountState
  unmarshalTransaction : List Byte → Transaction
  unmarshalReceipt : List Byte → Receipt
  unmarshalLogs : List Byte → Logs
  unmarshalSmartContractStateResult : List Byte → SmartContractStateResult
  emptyTransactionHash : List Byte
  MinerGetSmartContractState : String

/-- What the surroundings decide while one message is handled: whether a receiver is ready
on each channel at the moment of the `select` (an unset `chData` is never ready), whether
`os.WriteFile` succeeds, the hash of the store's pending transaction
(`transactionsDb.PendingTransaction.Hash`; the store is taken to hold one), and whether
`conn.Connect()` to the storage host succeeds. -/
structure Env where
  chDataReady : Bool
  accountStateReady : Bool
  receiptReady : Bool
  transactionReady : Bool
  writeFileOk : Bool
  pendingHash : List Byte
  connectOk : Bool
  deriving DecidableEq, Repr

/-! ## Effects -/

/-- The output channels: the package-level `chData` and the three channels of the handler. -/
inductive Chan where
  | chData
  | accountStateChan
  | receiptChan
  | transactionChan
  deriving DecidableEq, Repr

/-- A value offered on a channel. -/
inductive Record where
  | accountState (a : AccountState)
  | receipt (r : Receipt)
  | transaction (t : Transaction)
  deriving DecidableEq, Repr

/-- The log and print statements of the file, each with the data it formats. -/
inductive Line where
  | serverError (e : ReadErr)
  | invalidMessageLength (maxMsgLength messageLength : Nat)
  | byteReadMismatch (byteRead messageLength : Nat)
  | invalidMessage (command : String)
  | receiveReceipt
  | receiptFields (r : Receipt)
  | receiveConfirmedTransaction
  | writeDataError
  | transaction (t : Transaction)
  | pendingTransactionNotMatch
  | receiveInitConnection
  | accountNoData
  | accountData (a : AccountState)
  | connectStorageError
  | smartContractState
  | storageZero
  | code (c : List Byte)
  | storageHeader
  | storageEntry (k : String) (v : List Byte)
  | transactionError (body : List Byte)
  | newLogsHeader
  | queryLogsHeader
  | logEntry (address data : List Byte)
  | topic (i : Nat) (t : List Byte)
  | getTransactionResultHeader
  | transactionSummary (t : Transaction)
  deriving DecidableEq, Repr

/-- An observable effect.  `offer ch r accepted` is one `select { case ch <- r: default: }`:
`accepted` tells whether the send case was taken (the record was received) or the
default case (the record was dropped); `r` is the contents of the object at that moment.
The channels carry pointers, so a later write into the same object is seen by whoever
received it: `overwrite ch r` is such a write, giving the object last offered on `ch` the
contents `r`. -/
inductive Event where
  | log (l : Line)
  | offer (ch : Chan) (r : Record) (accepted : Bool)
  | overwrite (ch : Chan) (r : Record)
  | writeFile (path : String) (data : List Byte) (ok : Bool)
  | savePendingTransaction
  | connect (host : String) (port : Int) (ok : Bool)
  | sendBytes (host : String) (port : Int) (command : String) (payload : List Byte)
  | goHandleConnection (host : String) (port : Int)
  | close
  | onDisconnect
  deriving DecidableEq, Repr

/-- How a call ends: a normal return, a run-time panic, or `log.Fatalf` (process exit). -/
inductive Flow where
  | returned
  | panicked
  | exited
  deriving DecidableEq, Repr

/-- The effects of a call, in order, and how it ended. -/
structure Outcome where
  events : List Event
  flow : Flow
  deriving DecidableEq, Repr

/-! ## Library functions used by the handlers -/

/-- Length of `common.Hash` (go-ethereum `HashLength`). -/
def HashLength : Nat := 32

/-- The go-ethereum `common.BytesToHash(b)`: `SetBytes` crops `b` from the left to its last
32 bytes when it is longer, and copies it right-aligned into a zeroed 32-byte array. -/
def BytesToHash (b : List Byte) : List Byte :=
  let b1 := if b.length > HashLength then b.drop (b.length - HashLength) else b
  List.replicate (HashLength - b1.length) 0 ++ b1

/-- Go `strings.Split(s, ":")` on the characters of `s`: the pieces between the colons, one
piece more than there are colons (so never empty). -/
def Split : List Char → List (List Char)
  | [] => [[]]
  | c :: cs =>
    if c = ':' then [] :: Split cs
    else
      match Split cs with
      | [] => [[c]]
      | piece :: pieces => (c :: piece) :: pieces

/-- Value of a decimal digit character. -/
def digitVal (c : Char) : Nat := c.toNat - '0'.toNat

/-- Go `n = n*10 + int(ch)` over the digits, left to right. -/
def decimalValue (ds : List Char) : Nat := ds.foldl (fun n c => n * 10 + digitVal c) 0

/-- Go `strconv.Atoi(s)` on a 64-bit platform with the error dropped (`port, _ :=`): one
leading `+` or `-` is allowed, then one or more decimal digits; any other text gives 0, and
a value outside `int64` gives the nearest bound. -/
def Atoi (s : List Char) : Int :=
  let neg : Bool := match s with
    | '-' :: _ => true
    | _ => false
  let ds : List Char := match s with
    | '-' :: r => r
    | '+' :: r => r
    | _ => s
  if ds = [] ∨ ¬ (ds.all Char.isDigit) then 0
  else
    let n := decimalValue ds
    if neg then (if n > 2 ^ 63 then -(2 ^ 63 : Int) else -(n : Int))
    else (if n ≥ 2 ^ 63 then (2 ^ 63 - 1 : Int) else (n : Int))

/-! ## The handlers -/

/-- Go `handleInitConnectionMessage`. -/
def handleInitConnectionMessage (_message : Message) : Outcome :=
  ⟨[.log .receiveInitConnection], .returned⟩

/-- Go `handleReceipt`: `receipt := &pb.Receipt{}` is offered on `receiptChan` while it is
still the zero receipt; then `proto.Unmarshal(message.Body, receipt)` writes the body into
that same object, the one a consumer may now hold, and the fields are logged. -/
def handleReceipt (p : Proto) (env : Env) (message : Message) : Outcome :=
  let receipt := Receipt.zero
  let decoded := p.unmarshalReceipt message.Body
  ⟨[.log .receiveReceipt,
    .offer .receiptChan (.receipt receipt) env.receiptReady,
    .overwrite .receiptChan (.receipt decoded),
    .log (.receiptFields decoded)], .returned⟩

/-- Go `handleConfirmedTransaction`: the empty transaction is marshalled (no bytes) and
written to `./data_confirmed`; a write error ends the process (`log.Fatalf`).  Then the
body is unmarshalled and the two hashes are compared as `common.Hash` values. -/
def handleConfirmedTransaction (p : Proto) (env : Env) (message : Message) : Outcome :=
  let pre : List Event :=
    [.log .receiveConfirmedTransaction, .writeFile "./data_confirmed" [] env.writeFileOk]
  if ¬ env.writeFileOk then ⟨pre ++ [.log .writeDataError], .exited⟩
  else
    let transaction := p.unmarshalTransaction message.Body
    if BytesToHash env.pendingHash = BytesToHash transaction.Hash then
      ⟨pre ++ [.log (.transaction transaction), .savePendingTransaction], .returned⟩
    else
      ⟨pre ++ [.log (.transaction transaction), .log .pendingTransactionNotMatch], .returned⟩

/-- The tail of `handlerAccountState` under `if accountState.SmartContractInfo != nil`:
split the storage host at the colons, take `split[1]` (an index panic when there is no
colon), convert it, connect, and on success send the request and start a read loop on the
new connection. -/
def connectStorage (p : Proto) (env : Env) (accountState : AccountState)
    (info : SmartContractInfo) : Outcome :=
  match Split info.StorageHost.toList with
  | host :: portText :: _ =>
    let port := Atoi portText
    let h := String.mk host
    if env.connectOk then
      ⟨[.connect h port true,
        .sendBytes h port p.MinerGetSmartContractState accountState.Address,
        .goHandleConnection h port], .returned⟩
    else
      ⟨[.connect h port false, .log .connectStorageError], .returned⟩
  | _ => ⟨[], .panicked⟩

/-- Go `handlerAccountState`. -/
def handlerAccountState (p : Proto) (env : Env) (message : Message) : Outcome :=
  if message.Body.length = 0 then
    let as : AccountState :=
      { PendingBalance := [], Balance := [], LastHash := p.emptyTransactionHash,
        Address := [], SmartContractInfo := none }
    ⟨[.log .accountNoData,
      .offer .chData (.accountState as) env.chDataReady,
      .offer .accountStateChan (.accountState as) env.accountStateReady], .returned⟩
  else
    let accountState := p.unmarshalAccountState message.Body
    if env.chDataReady then
      ⟨[.offer .chData (.accountState accountState) true], .returned⟩
    else
      let pre : List Event :=
        [.offer .chData (.accountState accountState) false,
         .log (.accountData accountState),
         .offer .accountStateChan (.accountState accountState) env.accountStateReady]
      match accountState.SmartContractInfo with
      | none => ⟨pre, .returned⟩
      | some info =>
        let o := connectStorage p env accountState info
        ⟨pre ++ o.events, o.flow⟩

/-- Go `handlerSmartContractState`: reading `rs.SmartContractState.Code` panics when the
sub-record is absent; otherwise code and storage are printed and the connection is closed. -/
def handlerSmartContractState (p : Proto) (message : Message) : Outcome :=
  if message.Body.length = 0 then
    ⟨[.log .smartContractState, .log .accountNoData], .returned⟩
  else
    let rs := p.unmarshalSmartContractStateResult message.Body
    match rs.SmartContractState with
    | none => ⟨[.log .smartContractState, .log .storageZero], .panicked⟩
    | some st =>
      ⟨[.log .smartContractState, .log .storageZero, .log (.code st.Code), .log .storageHeader]
        ++ st.Storage.map (fun kv => .log (.storageEntry kv.1 kv.2))
        ++ [.close], .returned⟩

/-- Go `handlerTransactionError`: the decoded `pb.Error` is only printed. -/
def handlerTransactionError (message : Message) : Outcome :=
  ⟨[.log (.transactionError message.Body)], .returned⟩

/-- The lines printed for one log entry: address and data, then each topic with its index. -/
def logLines (l : Log) : List Event :=
  .log (.logEntry l.Address l.Data)
    :: (l.Topics.enum.map (fun it => Event.log (.topic it.1 it.2)))

/-- Go `handleNewLogs`. -/
def handleNewLogs (p : Proto) (message : Message) : Outcome :=
  let logs := p.unmarshalLogs message.Body
  ⟨.log .newLogsHeader :: (logs.Logs.map logLines).flatten, .returned⟩

/-- Go `handleQueryLogsResult`. -/
def handleQueryLogsResult (p : Proto) (message : Message) : Outcome :=
  let logs := p.unmarshalLogs message.Body
  ⟨.log .queryLogsHeader :: (logs.Logs.map logLines).flatten, .returned⟩

/-- Go `handleGetTransactionResult`. -/
def handleGetTransactionResult (p : Proto) (env : Env) (message : Message) : Outcome :=
  let transaction := p.unmarshalTransaction message.Body
  ⟨[.log .getTransactionResultHeader,
    .log (.transactionSummary transaction),
    .offer .transactionChan (.transaction transaction) env.transactionReady], .returned⟩

/-- Go `ProcessMessage`: `message.Header.Command` is read first (a nil-pointer panic when
the header is absent), then the `switch` picks the handler or logs a warning. -/
def ProcessMessage (p : Proto) (env : Env) (message : Message) : Outcome :=
  match message.Header with
  | none => ⟨[], .panicked⟩
  | some header =>
    if header.Command = "InitConnection" then handleInitConnectionMessage message
    else if header.Command = "ConfirmedTransaction" then handleConfirmedTransaction p env message
    else if header.Command = "AccountState" then handlerAccountState p env message
    else if header.Command = "MinerGetSmartContractStateResult" then
      handlerSmartContractState p message
    else if header.Command = "TransactionError" then handlerTransactionError message
    else if header.Command = "Receipt" then handleReceipt p env message
    else if header.Command = "NewLogs" then handleNewLogs p message
    else if header.Command = "QueryLogsResult" then handleQueryLogsResult p message
    else if header.Command = "GetTransactionResult" then handleGetTransactionResult p env message
    else ⟨[.log (.invalidMessage header.Command)], .returned⟩

/-! ## The read loop -/

/-- Go `maxMsgLength := uint64(1073741824)`. -/
def maxMsgLength : Nat := 1073741824

/-- Whether a handler called `conn.Close()`. -/
def closes (events : List Event) : Bool := events.any (fun e => e = Event.close)

/-- Result of running the loop: the effects in order, how it ended (`none`: the iteration
budget of the model ran out before the loop ended), and the connection at that point. -/
structure Run where
  events : List Event
  flow : Option Flow
  conn : Conn
  deriving DecidableEq, Repr

/-- What reading one frame gives: a complete frame and the connection after it, or the
end of the loop with the lines logged on the way out. -/
inductive FrameRead where
  | frame (data : List Byte) (conn : Conn)
  | stop (events : List Event) (conn : Conn)
  deriving DecidableEq, Repr

/-- The first half of the loop body of Go `HandleConnection` (reading the prefix, the size
check, reading the payload, the count check); `data` is `data[:messageLength]`. -/
def readFrame (c : Conn) : FrameRead :=
  let r1 := ReadFull c 8
  match r1.err with
  | some .EOF => .stop [] r1.conn
  | some e => .stop [.log (.serverError e)] r1.conn
  | none =>
    let messageLength := Uint64 r1.buf
    if messageLength > maxMsgLength then
      .stop [.log (.invalidMessageLength maxMsgLength messageLength)] r1.conn
    else
      let r2 := ReadFull r1.conn messageLength
      match r2.err with
      | some .EOF => .stop [] r2.conn
      | some e => .stop [.log (.serverError e)] r2.conn
      | none =>
        if r2.n ≠ messageLength then
          .stop [.log (.byteReadMismatch r2.n messageLength)] r2.conn
        else .frame (r2.buf.take messageLength) r2.conn

/-- The second half of the loop body: `proto.Unmarshal(data[:messageLength], &message)`,
`ProcessMessage` when there is no error, then the next iteration `next`.  A handler that
panics or exits the process ends the run; one that closed the connection leaves it closed
for the following reads. -/
def dispatchFrame (p : Proto) (env : Nat → Env) (k : Nat) (data : List Byte) (c : Conn)
    (next : Nat → Conn → Run) : Run :=
  match p.unmarshalMessage data with
  | none => next k c
  | some message =>
    let o := ProcessMessage p (env k) message
    match o.flow with
    | .returned =>
      let rest := next (k + 1) { c with closed := c.closed || closes o.events }
      ⟨o.events ++ rest.events, rest.flow, rest.conn⟩
    | f => ⟨o.events, some f, c⟩

/-- The `for` loop of Go `HandleConnection`, one iteration per unit of `fuel`.  `k` counts
the messages dispatched so far on this connection; `env k` is what the surroundings decide
while message `k` is handled. -/
def HandleConnectionLoop (p : Proto) (env : Nat → Env) : Nat → Nat → Conn → Run
  | 0, _, c => ⟨[], none, c⟩
  | fuel + 1, k, c =>
    match readFrame c with
    | .stop events c1 => ⟨events, some .returned, c1⟩
    | .frame data c2 => dispatchFrame p env k data c2 (HandleConnectionLoop p env fuel)

/-- The deferred `h.OnDisconnect(conn)`: it runs when the loop returns or panics, not when
the process exits. -/
def deferred (flow : Option Flow) : List Event :=
  match flow with
  | some .returned => [.onDisconnect]
  | some .panicked => [.onDisconnect]
  | _ => []

/-- Go `HandleConnection`.  Every iteration that goes on to another one has consumed the
eight prefix bytes, so `unread.length + 1` iterations are always enough. -/
def HandleConnection (p : Proto) (env : Nat → Env) (c : Conn) : Run :=
  let r := HandleConnectionLoop p env (c.unread.length + 1) 0 c
  ⟨r.events ++ deferred r.flow, r.flow, r.conn⟩

/-- A connection on which nothing has been read or closed yet. -/
def Conn.fresh (bytes : List Byte) (ending : StreamEnd) : Conn := ⟨bytes, ending, false⟩

/-! ## A small concrete `Proto` for evaluating the definitions -/

/-- Characters of a command, from the bytes of its text. -/
def textOf (bs : List Byte) : String := String.mk (bs.map (fun b => Char.ofNat b.val))

/-- A sample decoder: an empty frame is the zero message (no header, as `proto.Unmarshal`
leaves it), a frame starting with byte 255 is malformed, any other frame `n :: rest` has
the first `n` bytes of `rest` as command text and the remaining bytes as body. -/
def sampleUnmarshalMessage : List Byte → Option Message
  | [] => some ⟨none, []⟩
  | n :: rest =>
    if n.val = 255 then none
    else some ⟨some ⟨textOf (rest.take n.val)⟩, rest.drop n.val⟩

/-- A sample `Proto`: the body is the address of an account whose storage host is
`203.0.113.5:9000` (`[2001:db8::1]:9000` for the body `[6]`, `example.org:90:00` for the
body `[7]`), the hash of a transaction or receipt, the address of one log entry, the code
of a contract state. -/
def sampleProto : Proto where
  unmarshalMessage := sampleUnmarshalMessage
  unmarshalAccountState := fun b =>
    ⟨b, [], [], [],
      some ⟨if b = [6] then "[2001:db8::1]:9000"
            else if b = [7] then "example.org:90:00"
            else "203.0.113.5:9000"⟩⟩
  unmarshalTransaction := fun b => ⟨b, [], [], []⟩
  unmarshalReceipt := fun b => ⟨b, [], [], [], 0, []⟩
  unmarshalLogs := fun b => ⟨[⟨b, [], []⟩]⟩
  unmarshalSmartContractStateResult := fun b => ⟨some ⟨b, []⟩⟩
  emptyTransactionHash := List.replicate 32 0
  MinerGetSmartContractState := "MinerGetSmartContractState"

/-- Surroundings in which every channel has a ready receiver and every call succeeds. -/
def Env.allReady : Env := ⟨true, true, true, true, true, [], true⟩

/-- Surroundings in which no channel has a ready receiver; calls still succeed. -/
def Env.noneReady : Env := ⟨false, false, false, false, true, [], true⟩

/-! ## Observations on a list of effects -/

/-- The offers made, in order: channel, record, and whether it was accepted. -/
def offers (events : List Event) : List (Chan × Record × Bool) :=
  events.filterMap (fun ev =>
    match ev with
    | .offer ch r accepted => some (ch, r, accepted)
    | _ => none)

/-- The records a consumer of `ch` received, in order: the accepted offers on `ch`. -/
def received (ch : Chan) (events : List Event) : List Record :=
  (offers events).filterMap (fun o => if o.1 = ch ∧ o.2.2 = true then some o.2.1 else none)

/-- Contents, after `events`, of the object that held `r` when it was offered on `ch`:
each later write into it replaces the contents, until the next offer on `ch`, which is
made with another object. -/
def finalContents (ch : Chan) (r : Record) : List Event → Record
  | [] => r
  | .overwrite c r2 :: rest =>
    if c = ch then finalContents ch r2 rest else finalContents ch r rest
  | .offer c _ _ :: rest => if c = ch then r else finalContents ch r rest
  | _ :: rest => finalContents ch r rest

/-- What the consumer of `ch` holds once all of `events` have happened: the objects it
received, with their final contents. -/
def held (ch : Chan) : List Event → List Record
  | [] => []
  | .offer c r true :: rest =>
    if c = ch then finalContents ch r rest :: held ch rest else held ch rest
  | _ :: rest => held ch rest

/-- The secondary connections attempted: host and port. -/
def connects (events : List Event) : List (String × Int) :=
  events.filterMap (fun ev =>
    match ev with
    | .connect host port _ => some (host, port)
    | _ => none)

/-- The requests sent on secondary connections: command and payload. -/
def requests (events : List Event) : List (String × List Byte) :=
  events.filterMap (fun ev =>
    match ev with
    | .sendBytes _ _ command payload => some (command, payload)
    | _ => none)

/-- How many times the store's `SavePendingTransaction` was called. -/
def finalized (events : List Event) : Nat := events.count .savePendingTransaction

/-! ## Lemmas on the codec of the length prefix and on reading -/

theorem Uint64_PutUint64 (v : Nat) (h : v < 2 ^ 64) : Uint64 (PutUint64 v) = v := by
  simp only [PutUint64, Uint64, byteOf]
  omega

theorem PutUint64_length (v : Nat) : (PutUint64 v).length = 8 := rfl

theorem ReadFull_exact (pre rest : List Byte) (e : StreamEnd) :
    ReadFull ⟨pre ++ rest, e, false⟩ pre.length = ⟨pre, pre.length, none, ⟨rest, e, false⟩⟩ := by
  unfold ReadFull
  by_cases h0 : pre.length = 0
  · have : pre = [] := List.length_eq_zero.mp h0
    subst this
    simp
  · simp [h0]

theorem ReadFull_eight (v : Nat) (rest : List Byte) (e : StreamEnd) :
    ReadFull ⟨PutUint64 v ++ rest, e, false⟩ 8 = ⟨PutUint64 v, 8, none, ⟨rest, e, false⟩⟩ := by
  have h := ReadFull_exact (PutUint64 v) rest e
  rw [PutUint64_length] at h
  exact h

/-- A read without error consumed exactly `size` bytes. -/
theorem ReadFull_ok (c : Conn) (size : Nat) (h : (ReadFull c size).err = none) :
    size ≤ c.unread.length ∧ (ReadFull c size).conn.unread = c.unread.drop size
      ∧ (ReadFull c size).buf = c.unread.take size ∧ (ReadFull c size).n = size := by
  unfold ReadFull at h ⊢
  by_cases h0 : size = 0
  · simp [h0]
  · by_cases hc : c.closed = true
    · simp [h0, hc] at h
    · by_cases hs : size ≤ c.unread.length
      · simp [h0, hc, hs]
      · simp [h0, hc, hs] at h

theorem readFrame_shrinks (c c2 : Conn) (data : List Byte)
    (h : readFrame c = .frame data c2) : c2.unread.length + 8 ≤ c.unread.length := by
  unfold readFrame at h
  cases h1 : (ReadFull c 8).err with
  | some e => cases e <;> simp [h1] at h
  | none =>
    obtain ⟨h8, hu1, -, -⟩ := ReadFull_ok c 8 h1
    simp only [h1] at h
    split at h
    · simp at h
    · cases h2 : (ReadFull (ReadFull c 8).conn (Uint64 (ReadFull c 8).buf)).err with
      | some e => cases e <;> simp [h2] at h
      | none =>
        obtain ⟨hL, hu2, -, -⟩ := ReadFull_ok _ _ h2
        simp only [h2] at h
        split at h
        · simp at h
        · simp only [FrameRead.frame.injEq] at h
          rw [← h.2, hu2, hu1]
          simp only [List.length_drop]
          omega

theorem readFrame_complete (P rest : List Byte) (e : StreamEnd)
    (hL : P.length ≤ maxMsgLength) :
    readFrame ⟨PutUint64 P.length ++ (P ++ rest), e, false⟩ = .frame P ⟨rest, e, false⟩ := by
  have hlt : P.length < 2 ^ 64 := by
    unfold maxMsgLength at hL
    omega
  unfold readFrame
  simp only [ReadFull_eight, Uint64_PutUint64 _ hlt, ReadFull_exact]
  simp [Nat.not_lt.mpr hL]

theorem dispatchFrame_congr (p : Proto) (env : Nat → Env) (k : Nat) (data : List Byte)
    (c : Conn) (next1 next2 : Nat → Conn → Run)
    (h : ∀ k1 c1, c1.unread = c.unread → next1 k1 c1 = next2 k1 c1) :
    dispatchFrame p env k data c next1 = dispatchFrame p env k data c next2 := by
  unfold dispatchFrame
  cases p.unmarshalMessage data with
  | none => exact h k c rfl
  | some m =>
    simp only
    cases (ProcessMessage p (env k) m).flow <;> simp only
    rw [h (k + 1) ⟨c.unread, c.ending, c.closed || closes (ProcessMessage p (env k) m).events⟩ rfl]

/-- Once the budget exceeds the number of unread bytes, the result no longer depends on it. -/
theorem HandleConnectionLoop_fuel (p : Proto) (env : Nat → Env) :
    ∀ (fuel1 fuel2 k : Nat) (c : Conn), c.unread.length < fuel1 → c.unread.length < fuel2 →
      HandleConnectionLoop p env fuel1 k c = HandleConnectionLoop p env fuel2 k c := by
  intro fuel1
  induction fuel1 with
  | zero => intro fuel2 k c h1; omega
  | succ n ih =>
    intro fuel2 k c h1 h2
    cases fuel2 with
    | zero => omega
    | succ m =>
      unfold HandleConnectionLoop
      cases hr : readFrame c with
      | stop evs c1 => rfl
      | frame data c2 =>
        have hs := readFrame_shrinks c c2 data hr
        simp only
        apply dispatchFrame_congr
        intro k1 c1 hc1
        apply ih
        · rw [hc1]; omega
        · rw [hc1]; omega

/-- With a budget above the number of unread bytes the loop ends. -/
theorem HandleConnectionLoop_ends (p : Proto) (env : Nat → Env) :
    ∀ (fuel k : Nat) (c : Conn), c.unread.length < fuel →
      (HandleConnectionLoop p env fuel k c).flow ≠ none := by
  intro fuel
  induction fuel with
  | zero => intro k c h; omega
  | succ n ih =>
    intro k c h
    unfold HandleConnectionLoop
    cases hr : readFrame c with
    | stop evs c1 => simp
    | frame data c2 =>
      have hs := readFrame_shrinks c c2 data hr
      simp only
      unfold dispatchFrame
      cases p.unmarshalMessage data with
      | none => exact ih k c2 (by omega)
      | some m =>
        simp only
        cases (ProcessMessage p (env k) m).flow <;> simp only
        · exact ih (k + 1) _ (by simp only; omega)
        · simp
        · simp

/-- A read that asks for more bytes than the stream still has. -/
theorem ReadFull_short (bytes : List Byte) (e : StreamEnd) (size : Nat)
    (h : bytes.length < size) :
    ReadFull ⟨bytes, e, false⟩ size =
      ⟨bytes, bytes.length,
        some (match e with
          | .eof => if bytes.length = 0 then .EOF else .ErrUnexpectedEOF
          | .fault => .other),
        ⟨[], e, false⟩⟩ := by
  unfold ReadFull
  have h0 : size ≠ 0 := by omega
  have hs : ¬ size ≤ bytes.length := by omega
  simp [h0, hs]

theorem readFrame_short_header (short : List Byte) (e : StreamEnd) (h : short.length < 8) :
    readFrame ⟨short, e, false⟩ =
      .stop (if e = .eof ∧ short = [] then []
             else [.log (.serverError (if e = .eof then .ErrUnexpectedEOF else .other))])
        ⟨[], e, false⟩ := by
  unfold readFrame
  rw [ReadFull_short short e 8 h]
  cases e with
  | eof =>
    cases short with
    | nil => simp
    | cons b bs => simp
  | fault => simp

theorem readFrame_short_payload (L : Nat) (part : List Byte) (e : StreamEnd)
    (hL : L ≤ maxMsgLength) (hp : part.length < L) :
    readFrame ⟨PutUint64 L ++ part, e, false⟩ =
      .stop (if e = .eof ∧ part = [] then []
             else [.log (.serverError (if e = .eof then .ErrUnexpectedEOF else .other))])
        ⟨[], e, false⟩ := by
  have hlt : L < 2 ^ 64 := by
    unfold maxMsgLength at hL
    omega
  unfold readFrame
  simp only [ReadFull_eight, Uint64_PutUint64 _ hlt, ReadFull_short part e L hp]
  simp only [gt_iff_lt, Nat.not_lt.mpr hL, ↓reduceIte]
  cases e with
  | eof =>
    cases part with
    | nil => simp
    | cons b bs => simp
  | fault => simp

theorem readFrame_oversize (b rest : List Byte) (e : StreamEnd) (hb : b.length = 8)
    (hbig : Uint64 b > maxMsgLength) :
    readFrame ⟨b ++ rest, e, false⟩ =
      .stop [.log (.invalidMessageLength maxMsgLength (Uint64 b))] ⟨rest, e, false⟩ := by
  have h := ReadFull_exact b rest e
  rw [hb] at h
  unfold readFrame
  simp [h, hbig]

theorem readFrame_accept (b rest : List Byte) (e : StreamEnd) (hb : b.length = 8)
    (hok : Uint64 b ≤ maxMsgLength) (hlen : Uint64 b ≤ rest.length) :
    readFrame ⟨b ++ rest, e, false⟩ =
      .frame (rest.take (Uint64 b)) ⟨rest.drop (Uint64 b), e, false⟩ := by
  have h := ReadFull_exact b rest e
  rw [hb] at h
  have h2 := ReadFull_exact (rest.take (Uint64 b)) (rest.drop (Uint64 b)) e
  rw [List.take_append_drop, List.length_take, Nat.min_eq_left hlen] at h2
  unfold readFrame
  simp [h, h2, Nat.not_lt.mpr hok]

/-- Go `HandleConnection` always ends: the budget it is run with is never used up. -/
theorem HandleConnection_ends (p : Proto) (env : Nat → Env) (c : Conn) :
    (HandleConnection p env c).flow ≠ none :=
  HandleConnectionLoop_ends p env (c.unread.length + 1) 0 c (Nat.lt_succ_self _)

theorem HandleConnection_stop (p : Proto) (env : Nat → Env) (c c1 : Conn) (evs : List Event)
    (h : readFrame c = .stop evs c1) :
    HandleConnection p env c = ⟨evs ++ [.onDisconnect], some .returned, c1⟩ := by
  unfold HandleConnection HandleConnectionLoop
  simp [h, deferred]

theorem HandleConnectionLoop_stop (p : Proto) (env : Nat → Env) (fuel k : Nat) (c c1 : Conn)
    (evs : List Event) (h : readFrame c = .stop evs c1) :
    HandleConnectionLoop p env (fuel + 1) k c = ⟨evs, some .returned, c1⟩ := by
  rw [HandleConnectionLoop, h]

theorem HandleConnectionLoop_frame (p : Proto) (env : Nat → Env) (fuel k : Nat)
    (P rest : List Byte) (e : StreamEnd) (hL : P.length ≤ maxMsgLength) :
    HandleConnectionLoop p env (fuel + 1) k ⟨PutUint64 P.length ++ (P ++ rest), e, false⟩
      = dispatchFrame p env k P ⟨rest, e, false⟩ (HandleConnectionLoop p env fuel) := by
  rw [HandleConnectionLoop, readFrame_complete P rest e hL]

theorem HandleConnectionLoop_skip (p : Proto) (env : Nat → Env) (fuel k : Nat)
    (P rest : List Byte) (e : StreamEnd) (hL : P.length ≤ maxMsgLength)
    (hbad : p.unmarshalMessage P = none) :
    HandleConnectionLoop p env (fuel + 1) k ⟨PutUint64 P.length ++ (P ++ rest), e, false⟩
      = HandleConnectionLoop p env fuel k ⟨rest, e, false⟩ := by
  rw [HandleConnectionLoop_frame p env fuel k P rest e hL]
  unfold dispatchFrame
  simp [hbad]

theorem HandleConnection_skip (p : Proto) (env : Nat → Env)
    (P rest : List Byte) (e : StreamEnd) (hL : P.length ≤ maxMsgLength)
    (hbad : p.unmarshalMessage P = none) :
    HandleConnection p env (Conn.fresh (PutUint64 P.length ++ (P ++ rest)) e)
      = HandleConnection p env (Conn.fresh rest e) := by
  unfold HandleConnection Conn.fresh
  simp only
  rw [HandleConnectionLoop_skip p env _ 0 P rest e hL hbad]
  rw [HandleConnectionLoop_fuel p env _ (rest.length + 1) 0 ⟨rest, e, false⟩]
  · simp only [List.length_append, PutUint64_length]
    omega
  · simp

/-! ## The Frame Reader claims -/

/-- C1: for every payload `P` of length `L ≤ 1073741824` (the empty payload included) and
every stream that starts with the 8-byte little-endian encoding of `L` followed by `P` and
any further bytes `rest`, reading one frame yields exactly `P` and leaves exactly `rest`
unread, and the loop iteration hands exactly `P` to the decoder step (`dispatchFrame`
applies `unmarshalMessage` to it) with the next iteration starting at `rest`. -/
theorem C1_frame_reader_yields_payload (p : Proto) (env : Nat → Env) (P rest : List Byte)
    (e : StreamEnd) (hL : P.length ≤ 1073741824) :
    readFrame ⟨PutUint64 P.length ++ (P ++ rest), e, false⟩ = .frame P ⟨rest, e, false⟩
    ∧ ∀ fuel k : Nat,
        HandleConnectionLoop p env (fuel + 1) k ⟨PutUint64 P.length ++ (P ++ rest), e, false⟩
          = dispatchFrame p env k P ⟨rest, e, false⟩ (HandleConnectionLoop p env fuel) :=
  ⟨readFrame_complete P rest e hL,
   fun fuel k => HandleConnectionLoop_frame p env fuel k P rest e hL⟩

/-- C1 at a three-byte payload followed by one more byte. -/
theorem C1_frame_reader_yields_payload_witness :
    ([2, 72, 105] : List Byte).length ≤ 1073741824
    ∧ readFrame ⟨PutUint64 3 ++ ([2, 72, 105] ++ [9]), .eof, false⟩
        = .frame [2, 72, 105] ⟨[9], .eof, false⟩ :=
  ⟨by decide,
   (C1_frame_reader_yields_payload sampleProto (fun _ => Env.allReady) [2, 72, 105] [9] .eof
      (by decide)).1⟩

/-- C2: when the stream ends after the prefix encoding `L ≤ 1073741824` and fewer than `L`
payload bytes, or before all 8 prefix bytes, `HandleConnection` returns; its only effects
are the error line of the failed read (none at a clean end with no byte read) and the
deferred disconnect, so no handler ran and no channel was offered anything.  The same
holds at any later iteration of the loop: it returns with at most that error line. -/
theorem C2_incomplete_frame_stops (p : Proto) (env : Nat → Env) (L : Nat)
    (part short : List Byte) (e : StreamEnd)
    (hL : L ≤ 1073741824) (hp : part.length < L) (hs : short.length < 8) :
    HandleConnection p env (Conn.fresh (PutUint64 L ++ part) e)
      = ⟨(if e = .eof ∧ part = [] then []
          else [.log (.serverError (if e = .eof then .ErrUnexpectedEOF else .other))])
          ++ [.onDisconnect], some .returned, ⟨[], e, false⟩⟩
    ∧ HandleConnection p env (Conn.fresh short e)
      = ⟨(if e = .eof ∧ short = [] then []
          else [.log (.serverError (if e = .eof then .ErrUnexpectedEOF else .other))])
          ++ [.onDisconnect], some .returned, ⟨[], e, false⟩⟩
    ∧ (∀ fuel k : Nat,
        HandleConnectionLoop p env (fuel + 1) k ⟨PutUint64 L ++ part, e, false⟩
          = ⟨(if e = .eof ∧ part = [] then []
              else [.log (.serverError (if e = .eof then .ErrUnexpectedEOF else .other))]),
              some .returned, ⟨[], e, false⟩⟩)
    ∧ (∀ fuel k : Nat,
        HandleConnectionLoop p env (fuel + 1) k ⟨short, e, false⟩
          = ⟨(if e = .eof ∧ short = [] then []
              else [.log (.serverError (if e = .eof then .ErrUnexpectedEOF else .other))]),
              some .returned, ⟨[], e, false⟩⟩) :=
  ⟨HandleConnection_stop p env _ _ _ (readFrame_short_payload L part e hL hp),
   HandleConnection_stop p env _ _ _ (readFrame_short_header short e hs),
   fun fuel k => HandleConnectionLoop_stop p env fuel k _ _ _
     (readFrame_short_payload L part e hL hp),
   fun fuel k => HandleConnectionLoop_stop p env fuel k _ _ _
     (readFrame_short_header short e hs)⟩

/-- C2 at a prefix announcing 3 bytes followed by 2, and at a 3-byte stream. -/
theorem C2_incomplete_frame_stops_witness :
    (3 ≤ 1073741824 ∧ ([2, 72] : List Byte).length < 3 ∧ ([1, 2, 3] : List Byte).length < 8)
    ∧ HandleConnection sampleProto (fun _ => Env.allReady)
        (Conn.fresh (PutUint64 3 ++ [2, 72]) .eof)
      = ⟨[.log (.serverError .ErrUnexpectedEOF), .onDisconnect], some .returned,
          ⟨[], .eof, false⟩⟩ :=
  ⟨by decide,
   (C2_incomplete_frame_stops sampleProto (fun _ => Env.allReady) 3 [2, 72] [1, 2, 3] .eof
      (by decide) (by decide) (by decide)).1⟩

/-- C3: for every 8-byte prefix `b` and every continuation `rest` of the stream: when the
value of `b` exceeds 1073741824, `HandleConnection` logs the length error and returns with
`rest` still unread (nothing decoded, no handler); when the value is at most 1073741824
(that bound included) and `rest` holds that many bytes, the frame is accepted; in
particular a frame of exactly 1073741824 bytes is read in full. -/
theorem C3_oversize_prefix_rejected (p : Proto) (env : Nat → Env) (b rest : List Byte)
    (e : StreamEnd) (hb : b.length = 8) :
    (Uint64 b > 1073741824 →
      HandleConnection p env (Conn.fresh (b ++ rest) e)
        = ⟨[.log (.invalidMessageLength 1073741824 (Uint64 b)), .onDisconnect],
            some .returned, ⟨rest, e, false⟩⟩
      ∧ ∀ fuel k : Nat,
        HandleConnectionLoop p env (fuel + 1) k ⟨b ++ rest, e, false⟩
          = ⟨[.log (.invalidMessageLength 1073741824 (Uint64 b))], some .returned,
              ⟨rest, e, false⟩⟩)
    ∧ (Uint64 b ≤ 1073741824 → Uint64 b ≤ rest.length →
      readFrame (Conn.fresh (b ++ rest) e)
        = .frame (rest.take (Uint64 b)) ⟨rest.drop (Uint64 b), e, false⟩)
    ∧ (∀ P : List Byte, P.length = 1073741824 →
      readFrame (Conn.fresh (PutUint64 1073741824 ++ (P ++ rest)) e)
        = .frame P ⟨rest, e, false⟩) :=
  ⟨fun hbig =>
     ⟨HandleConnection_stop p env _ _ _ (readFrame_oversize b rest e hb hbig),
      fun fuel k => HandleConnectionLoop_stop p env fuel k _ _ _
        (readFrame_oversize b rest e hb hbig)⟩,
   fun hok hlen => readFrame_accept b rest e hb hok hlen,
   fun P hP => by
     have h := readFrame_complete P rest e (Nat.le_of_eq hP)
     rw [hP] at h
     exact h⟩

/-- C3 at the prefix encoding 1073741825. -/
theorem C3_oversize_prefix_rejected_witness :
    (PutUint64 1073741825).length = 8 ∧ Uint64 (PutUint64 1073741825) > 1073741824
    ∧ HandleConnection sampleProto (fun _ => Env.allReady)
        (Conn.fresh (PutUint64 1073741825 ++ [1, 2, 3]) .eof)
      = ⟨[.log (.invalidMessageLength 1073741824 (Uint64 (PutUint64 1073741825))),
          .onDisconnect], some .returned, ⟨[1, 2, 3], .eof, false⟩⟩ :=
  ⟨rfl, by decide,
   ((C3_oversize_prefix_rejected sampleProto (fun _ => Env.allReady) (PutUint64 1073741825)
      [1, 2, 3] .eof rfl).1 (by decide)).1⟩

/-- C5: a complete frame whose bytes fail to decode has no effect at all: the loop goes
on with the bytes after it (at any point of the connection), so the whole run equals the
run on the stream without that frame; and when a well-formed frame `Q` follows, the
iteration after the malformed one hands `Q` to the decoder and dispatches it. -/
theorem C5_decode_failure_drops_frame (p : Proto) (env : Nat → Env) (P Q rest : List Byte)
    (e : StreamEnd) (hL : P.length ≤ 1073741824) (hQ : Q.length ≤ 1073741824)
    (hbad : p.unmarshalMessage P = none) :
    (∀ fuel k : Nat,
      HandleConnectionLoop p env (fuel + 1) k ⟨PutUint64 P.length ++ (P ++ rest), e, false⟩
        = HandleConnectionLoop p env fuel k ⟨rest, e, false⟩)
    ∧ HandleConnection p env (Conn.fresh (PutUint64 P.length ++ (P ++ rest)) e)
        = HandleConnection p env (Conn.fresh rest e)
    ∧ (∀ fuel k : Nat,
      HandleConnectionLoop p env (fuel + 2) k
          ⟨PutUint64 P.length ++ (P ++ (PutUint64 Q.length ++ (Q ++ rest))), e, false⟩
        = dispatchFrame p env k Q ⟨rest, e, false⟩ (HandleConnectionLoop p env fuel)) :=
  ⟨fun fuel k => HandleConnectionLoop_skip p env fuel k P rest e hL hbad,
   HandleConnection_skip p env P rest e hL hbad,
   fun fuel k => by
     rw [HandleConnectionLoop_skip p env (fuel + 1) k P _ e hL hbad,
       HandleConnectionLoop_frame p env fuel k Q rest e hQ]⟩

/-- C5 at the malformed frame `[255]` followed by a frame carrying the command `Hi`. -/
theorem C5_decode_failure_drops_frame_witness :
    (([255] : List Byte).length ≤ 1073741824 ∧ ([2, 72, 105] : List Byte).length ≤ 1073741824
      ∧ sampleProto.unmarshalMessage [255] = none)
    ∧ HandleConnection sampleProto (fun _ => Env.allReady)
        (Conn.fresh (PutUint64 1 ++ ([255] ++ (PutUint64 3 ++ [2, 72, 105]))) .eof)
      = HandleConnection sampleProto (fun _ => Env.allReady)
        (Conn.fresh (PutUint64 3 ++ [2, 72, 105]) .eof) :=
  ⟨⟨by decide, by decide, rfl⟩,
   (C5_decode_failure_drops_frame sampleProto (fun _ => Env.allReady) [255] []
      (PutUint64 3 ++ [2, 72, 105]) .eof (by decide) (by decide) rfl).2.1⟩


/-! ## Lemmas on `strings.Split` -/

theorem Split_no_colon (s : List Char) (h : ':' ∉ s) : Split s = [s] := by
  induction s with
  | nil => rfl
  | cons c cs ih =>
    have hc : c ≠ ':' := fun hh => h (by simp [hh])
    have hcs : ':' ∉ cs := fun hh => h (by simp [hh])
    simp [Split, hc, ih hcs]

theorem Split_host_port (host rest : List Char) (h : ':' ∉ host) :
    Split (host ++ ':' :: rest) = host :: Split rest := by
  induction host with
  | nil => simp [Split]
  | cons c cs ih =>
    have hc : c ≠ ':' := fun hh => h (by simp [hh])
    have hcs : ':' ∉ cs := fun hh => h (by simp [hh])
    simp [Split, hc, ih hcs]

theorem connectStorage_host_port (p : Proto) (env : Env) (a : AccountState)
    (host port : String) (hh : ':' ∉ host.toList) (hp : ':' ∉ port.toList) :
    connectStorage p env a ⟨host ++ ":" ++ port⟩ =
      if env.connectOk then
        ⟨[.connect host (Atoi port.toList) true,
          .sendBytes host (Atoi port.toList) p.MinerGetSmartContractState a.Address,
          .goHandleConnection host (Atoi port.toList)], .returned⟩
      else ⟨[.connect host (Atoi port.toList) false, .log .connectStorageError], .returned⟩ := by
  have hs : (host ++ ":" ++ port).toList = host.toList ++ ':' :: port.toList := by
    simp [String.toList, String.data_append]
  unfold connectStorage
  simp only [hs, Split_host_port _ _ hh, Split_no_colon _ hp]
  rfl


/-! ## Lemmas on dispatch -/

theorem ProcessMessage_AccountState (p : Proto) (env : Env) (m : Message)
    (h : m.Header = some ⟨"AccountState"⟩) :
    ProcessMessage p env m = handlerAccountState p env m := by
  unfold ProcessMessage
  rw [h]
  simp

theorem ProcessMessage_ConfirmedTransaction (p : Proto) (env : Env) (m : Message)
    (h : m.Header = some ⟨"ConfirmedTransaction"⟩) :
    ProcessMessage p env m = handleConfirmedTransaction p env m := by
  unfold ProcessMessage
  rw [h]
  simp

theorem ProcessMessage_Receipt (p : Proto) (env : Env) (m : Message)
    (h : m.Header = some ⟨"Receipt"⟩) :
    ProcessMessage p env m = handleReceipt p env m := by
  unfold ProcessMessage
  rw [h]
  simp

theorem ProcessMessage_GetTransactionResult (p : Proto) (env : Env) (m : Message)
    (h : m.Header = some ⟨"GetTransactionResult"⟩) :
    ProcessMessage p env m = handleGetTransactionResult p env m := by
  unfold ProcessMessage
  rw [h]
  simp

/-- C4 (what the code does): a message with a header is dispatched to the handler of its
command, or logged as invalid when the command is none of the nine; a message without a
header, which is what an empty frame decodes to, makes `ProcessMessage` panic, and the
read loop ends in that panic after the deferred disconnect. -/
theorem C4_dispatch_absent_header_panics (p : Proto) (env : Nat → Env) (e : StreamEnd)
    (hzero : p.unmarshalMessage [] = some ⟨none, []⟩) :
    (∀ (v : Env) (m : Message) (cmd : String), m.Header = some ⟨cmd⟩ →
      ProcessMessage p v m =
        if cmd = "InitConnection" then handleInitConnectionMessage m
        else if cmd = "ConfirmedTransaction" then handleConfirmedTransaction p v m
        else if cmd = "AccountState" then handlerAccountState p v m
        else if cmd = "MinerGetSmartContractStateResult" then handlerSmartContractState p m
        else if cmd = "TransactionError" then handlerTransactionError m
        else if cmd = "Receipt" then handleReceipt p v m
        else if cmd = "NewLogs" then handleNewLogs p m
        else if cmd = "QueryLogsResult" then handleQueryLogsResult p m
        else if cmd = "GetTransactionResult" then handleGetTransactionResult p v m
        else ⟨[.log (.invalidMessage cmd)], .returned⟩)
    ∧ (∀ (v : Env) (body : List Byte), ProcessMessage p v ⟨none, body⟩ = ⟨[], .panicked⟩)
    ∧ HandleConnection p env (Conn.fresh (PutUint64 0) e)
        = ⟨[.onDisconnect], some .panicked, ⟨[], e, false⟩⟩ := by
  refine ⟨?_, ?_, ?_⟩
  · intro v m cmd h
    unfold ProcessMessage
    rw [h]
  · intro v body
    rfl
  · have h := HandleConnectionLoop_frame p env 8 0 [] [] e (by decide)
    unfold HandleConnection Conn.fresh
    simp only [List.length_nil, List.append_nil] at h
    simp only [PutUint64_length]
    rw [h]
    simp [dispatchFrame, hzero, ProcessMessage, deferred]

/-- C4 at the stream of eight zero bytes, with the sample decoder. -/
theorem C4_dispatch_absent_header_panics_witness :
    sampleProto.unmarshalMessage [] = some ⟨none, []⟩
    ∧ HandleConnection sampleProto (fun _ => Env.allReady) (Conn.fresh (PutUint64 0) .eof)
        = ⟨[.onDisconnect], some .panicked, ⟨[], .eof, false⟩⟩ :=
  ⟨rfl, (C4_dispatch_absent_header_panics sampleProto (fun _ => Env.allReady) .eof rfl).2.2⟩

/-! ## The handler claims -/

/-- C7: an `AccountState` message with an empty body makes the handler build the
record with zero-length `Balance` and `PendingBalance` and `LastHash` equal to the hash of
the empty transaction, and offer that same record first on `chData` and then on
`accountStateChan`, the second offer being made whatever became of the first; nothing is
connected to and the handler returns. -/
theorem C7_account_state_empty_body (p : Proto) (env : Env) (m : Message)
    (hcmd : m.Header = some ⟨"AccountState"⟩) (hbody : m.Body = []) :
    ∃ as : AccountState,
      as.Balance.length = 0 ∧ as.PendingBalance.length = 0
      ∧ as.LastHash = p.emptyTransactionHash
      ∧ ProcessMessage p env m
          = ⟨[.log .accountNoData,
              .offer .chData (.accountState as) env.chDataReady,
              .offer .accountStateChan (.accountState as) env.accountStateReady], .returned⟩
      ∧ offers (ProcessMessage p env m).events
          = [(.chData, .accountState as, env.chDataReady),
             (.accountStateChan, .accountState as, env.accountStateReady)]
      ∧ connects (ProcessMessage p env m).events = [] := by
  refine ⟨⟨[], [], [], p.emptyTransactionHash, none⟩, rfl, rfl, rfl, ?_⟩
  rw [ProcessMessage_AccountState p env m hcmd]
  unfold handlerAccountState
  simp [hbody, offers, connects]

/-- C7 at an empty `AccountState` message with no consumer ready. -/
theorem C7_account_state_empty_body_witness :
    ((⟨some ⟨"AccountState"⟩, []⟩ : Message).Header = some ⟨"AccountState"⟩
      ∧ (⟨some ⟨"AccountState"⟩, []⟩ : Message).Body = [])
    ∧ ∃ as : AccountState,
      as.Balance.length = 0 ∧ as.PendingBalance.length = 0
      ∧ as.LastHash = sampleProto.emptyTransactionHash
      ∧ ProcessMessage sampleProto Env.noneReady ⟨some ⟨"AccountState"⟩, []⟩
          = ⟨[.log .accountNoData,
              .offer .chData (.accountState as) Env.noneReady.chDataReady,
              .offer .accountStateChan (.accountState as) Env.noneReady.accountStateReady],
              .returned⟩
      ∧ offers (ProcessMessage sampleProto Env.noneReady ⟨some ⟨"AccountState"⟩, []⟩).events
          = [(.chData, .accountState as, Env.noneReady.chDataReady),
             (.accountStateChan, .accountState as, Env.noneReady.accountStateReady)]
      ∧ connects (ProcessMessage sampleProto Env.noneReady ⟨some ⟨"AccountState"⟩, []⟩).events
          = [] :=
  ⟨⟨rfl, rfl⟩,
   C7_account_state_empty_body sampleProto Env.noneReady ⟨some ⟨"AccountState"⟩, []⟩ rfl rfl⟩

/-- C9: a `GetTransactionResult` message whose body decodes to a transaction with hash
`H` makes the handler print the summary and make one offer, of that transaction, on
`transactionChan` and on no other channel, and return.  With a consumer ready the channel
receives exactly that one record, with hash `H`; with none ready nothing is received and
the handler still returns normally. -/
theorem C9_get_transaction_result (p : Proto) (env : Env) (m : Message) (tx : Transaction)
    (H : List Byte) (hcmd : m.Header = some ⟨"GetTransactionResult"⟩)
    (hdec : p.unmarshalTransaction m.Body = tx) (hH : tx.Hash = H) :
    ProcessMessage p env m
      = ⟨[.log .getTransactionResultHeader, .log (.transactionSummary tx),
          .offer .transactionChan (.transaction tx) env.transactionReady], .returned⟩
    ∧ offers (ProcessMessage p env m).events
        = [(.transactionChan, .transaction tx, env.transactionReady)]
    ∧ (env.transactionReady = true →
        received .transactionChan (ProcessMessage p env m).events = [.transaction tx]
        ∧ tx.Hash = H)
    ∧ (env.transactionReady = false →
        (∀ ch, received ch (ProcessMessage p env m).events = [])
        ∧ (ProcessMessage p env m).flow = .returned) := by
  rw [ProcessMessage_GetTransactionResult p env m hcmd]
  unfold handleGetTransactionResult
  rw [hdec]
  refine ⟨rfl, rfl, ?_, ?_⟩
  · intro hr
    simp [received, offers, hr, hH]
  · intro hr
    simp [received, offers, hr]

/-- C9 at a two-byte body with a consumer ready. -/
theorem C9_get_transaction_result_witness :
    ((⟨some ⟨"GetTransactionResult"⟩, [7, 7]⟩ : Message).Header
        = some ⟨"GetTransactionResult"⟩
      ∧ sampleProto.unmarshalTransaction [7, 7] = ⟨[7, 7], [], [], []⟩
      ∧ (⟨[7, 7], [], [], []⟩ : Transaction).Hash = [7, 7])
    ∧ offers (ProcessMessage sampleProto Env.allReady
        ⟨some ⟨"GetTransactionResult"⟩, [7, 7]⟩).events
        = [(.transactionChan, .transaction ⟨[7, 7], [], [], []⟩, Env.allReady.transactionReady)] :=
  ⟨⟨rfl, rfl, rfl⟩,
   (C9_get_transaction_result sampleProto Env.allReady ⟨some ⟨"GetTransactionResult"⟩, [7, 7]⟩
      ⟨[7, 7], [], [], []⟩ [7, 7] rfl rfl rfl).2.1⟩

/-- C10 as stated fails: the record published is the object the body is then decoded
into.  With a consumer ready, two `Receipt` messages with the bodies `[1]` and `[2, 3]`
leave the consumer holding two different records, each the decoded receipt and neither
the zero receipt. -/
theorem C10_counterexample :
    held .receiptChan
        (ProcessMessage sampleProto Env.allReady ⟨some ⟨"Receipt"⟩, [1]⟩).events
      = [.receipt (sampleProto.unmarshalReceipt [1])]
    ∧ held .receiptChan
        (ProcessMessage sampleProto Env.allReady ⟨some ⟨"Receipt"⟩, [2, 3]⟩).events
      = [.receipt (sampleProto.unmarshalReceipt [2, 3])]
    ∧ held .receiptChan
        (ProcessMessage sampleProto Env.allReady ⟨some ⟨"Receipt"⟩, [1]⟩).events
      ≠ held .receiptChan
        (ProcessMessage sampleProto Env.allReady ⟨some ⟨"Receipt"⟩, [2, 3]⟩).events
    ∧ held .receiptChan
        (ProcessMessage sampleProto Env.allReady ⟨some ⟨"Receipt"⟩, [1]⟩).events
      ≠ [.receipt Receipt.zero] := by
  decide

/-- C10 (amended): a `Receipt` message makes the handler offer one record, on
`receiptChan` only, before the body is decoded; at the moment of the offer the record is
the zero receipt, whatever the body.  The body is then decoded into that same record, so
once the handler has returned a consumer that took the offer holds the decoded receipt,
and a consumer that was not ready holds nothing. -/
theorem C10_receipt_published_then_decoded (p : Proto) (env : Env) (m : Message)
    (hcmd : m.Header = some ⟨"Receipt"⟩) :
    ProcessMessage p env m
      = ⟨[.log .receiveReceipt,
          .offer .receiptChan (.receipt Receipt.zero) env.receiptReady,
          .overwrite .receiptChan (.receipt (p.unmarshalReceipt m.Body)),
          .log (.receiptFields (p.unmarshalReceipt m.Body))], .returned⟩
    ∧ offers (ProcessMessage p env m).events
        = [(.receiptChan, .receipt Receipt.zero, env.receiptReady)]
    ∧ held .receiptChan (ProcessMessage p env m).events
        = (if env.receiptReady then [.receipt (p.unmarshalReceipt m.Body)] else [])
    ∧ (∀ ch : Chan, ch ≠ .receiptChan → held ch (ProcessMessage p env m).events = []) := by
  rw [ProcessMessage_Receipt p env m hcmd]
  unfold handleReceipt
  refine ⟨rfl, rfl, ?_, ?_⟩
  · cases hr : env.receiptReady <;> simp [held, finalContents]
  · intro ch hch
    have hne : ¬ Chan.receiptChan = ch := fun h => hch h.symm
    cases hr : env.receiptReady <;> simp [held, hne]

/-- C10 (amended) at a `Receipt` message with the body `[2, 3]` and a consumer ready. -/
theorem C10_receipt_published_then_decoded_witness :
    (⟨some ⟨"Receipt"⟩, [2, 3]⟩ : Message).Header = some ⟨"Receipt"⟩
    ∧ held .receiptChan
        (ProcessMessage sampleProto Env.allReady ⟨some ⟨"Receipt"⟩, [2, 3]⟩).events
      = (if Env.allReady.receiptReady
          then [.receipt (sampleProto.unmarshalReceipt [2, 3])] else []) :=
  ⟨rfl,
   (C10_receipt_published_then_decoded sampleProto Env.allReady ⟨some ⟨"Receipt"⟩, [2, 3]⟩
      rfl).2.2.1⟩

/-- C6 as stated fails in two ways.  With a consumer ready on `chData`, the `AccountState`
message whose body decodes to a record with storage host `203.0.113.5:9000` is handed to
that consumer and the handler returns at once; no connection is attempted.  And with no
consumer ready, a storage host with more than one colon is cut at the first two: for
`[2001:db8::1]:9000` the connection goes to the host `[2001` and the port 0, and for
`example.org:90:00` to the port 90. -/
theorem C6_counterexample :
    ((sampleProto.unmarshalAccountState [1]).SmartContractInfo = some ⟨"203.0.113.5:9000"⟩
      ∧ Env.allReady.chDataReady = true
      ∧ ProcessMessage sampleProto Env.allReady ⟨some ⟨"AccountState"⟩, [1]⟩
          = ⟨[.offer .chData (.accountState (sampleProto.unmarshalAccountState [1])) true],
              .returned⟩
      ∧ connects (ProcessMessage sampleProto Env.allReady ⟨some ⟨"AccountState"⟩, [1]⟩).events
          = [])
    ∧ ((sampleProto.unmarshalAccountState [6]).SmartContractInfo
          = some ⟨"[2001:db8::1]" ++ ":" ++ "9000"⟩
      ∧ Env.noneReady.chDataReady = false
      ∧ connects (ProcessMessage sampleProto Env.noneReady ⟨some ⟨"AccountState"⟩, [6]⟩).events
          = [("[2001", 0)])
    ∧ ((sampleProto.unmarshalAccountState [7]).SmartContractInfo
          = some ⟨"example.org" ++ ":" ++ "90:00"⟩
      ∧ connects (ProcessMessage sampleProto Env.noneReady ⟨some ⟨"AccountState"⟩, [7]⟩).events
          = [("example.org", 90)]
      ∧ Atoi "90:00".toList = 0) := by
  decide

/-- C6 (amended): an `AccountState` message with a non-empty body that decodes to a record
with `SmartContractInfo` present and `StorageHost = host ++ ":" ++ port` with exactly that
one colon (none in `host`, none in `port`).  When `chData` does not accept the record, the handler logs it, offers it on
`accountStateChan` and, whatever that consumer does, attempts exactly one connection, to
`host` and the port `Atoi port`; when the connection succeeds it sends exactly one
request, with the command `MinerGetSmartContractState` and the account address as
payload, and starts the read loop on the new connection; when it fails it only prints
the error.  When `chData` accepts the record, the handler returns without connecting. -/
theorem C6_account_state_fetches_contract_state (p : Proto) (env : Env) (m : Message)
    (a : AccountState) (host port : String)
    (hcmd : m.Header = some ⟨"AccountState"⟩) (hbody : m.Body ≠ [])
    (hdec : p.unmarshalAccountState m.Body = a)
    (hinfo : a.SmartContractInfo = some ⟨host ++ ":" ++ port⟩)
    (hh : ':' ∉ host.toList) (hp : ':' ∉ port.toList) :
    (env.chDataReady = false →
      ProcessMessage p env m
        = ⟨[.offer .chData (.accountState a) false, .log (.accountData a),
            .offer .accountStateChan (.accountState a) env.accountStateReady,
            .connect host (Atoi port.toList) env.connectOk]
            ++ (if env.connectOk then
                  [.sendBytes host (Atoi port.toList) p.MinerGetSmartContractState a.Address,
                   .goHandleConnection host (Atoi port.toList)]
                else [.log .connectStorageError]), .returned⟩
      ∧ connects (ProcessMessage p env m).events = [(host, Atoi port.toList)]
      ∧ requests (ProcessMessage p env m).events
          = if env.connectOk then [(p.MinerGetSmartContractState, a.Address)] else [])
    ∧ (env.chDataReady = true →
      ProcessMessage p env m = ⟨[.offer .chData (.accountState a) true], .returned⟩) := by
  have hlen : m.Body.length ≠ 0 := fun h => hbody (List.length_eq_zero.mp h)
  rw [ProcessMessage_AccountState p env m hcmd]
  unfold handlerAccountState
  simp only [hlen, ↓reduceIte, hdec, hinfo, connectStorage_host_port p env a host port hh hp]
  constructor
  · intro hr
    cases hc : env.connectOk <;> simp [hr, connects, requests]
  · intro hr
    simp [hr]

/-- C6 (amended) at the storage host `203.0.113.5:9000` with no consumer ready. -/
theorem C6_account_state_fetches_contract_state_witness :
    ((⟨some ⟨"AccountState"⟩, [1]⟩ : Message).Header = some ⟨"AccountState"⟩
      ∧ (⟨some ⟨"AccountState"⟩, [1]⟩ : Message).Body ≠ []
      ∧ sampleProto.unmarshalAccountState [1] = ⟨[1], [], [], [], some ⟨"203.0.113.5:9000"⟩⟩
      ∧ (⟨[1], [], [], [], some ⟨"203.0.113.5:9000"⟩⟩ : AccountState).SmartContractInfo
          = some ⟨"203.0.113.5" ++ ":" ++ "9000"⟩
      ∧ ':' ∉ "203.0.113.5".toList ∧ ':' ∉ "9000".toList
      ∧ Env.noneReady.chDataReady = false)
    ∧ connects (ProcessMessage sampleProto Env.noneReady ⟨some ⟨"AccountState"⟩, [1]⟩).events
        = [("203.0.113.5", Atoi "9000".toList)]
    ∧ Atoi "9000".toList = 9000 :=
  ⟨⟨rfl, by decide, rfl, by decide, by decide, by decide, rfl⟩,
   ((C6_account_state_fetches_contract_state sampleProto Env.noneReady
      ⟨some ⟨"AccountState"⟩, [1]⟩ ⟨[1], [], [], [], some ⟨"203.0.113.5:9000"⟩⟩
      "203.0.113.5" "9000" rfl (by decide) rfl (by decide) (by decide) (by decide)).1 rfl).2.1,
   by decide⟩

/-- C8 as stated fails twice.  With equal hashes but a failing write of
`./data_confirmed` the process exits and the store is not called; and with the write
succeeding, a decoded hash of 33 bytes whose last 32 are the pending hash differs from the
pending hash, yet the store is called. -/
theorem C8_counterexample :
    ((sampleProto.unmarshalTransaction (List.replicate 32 7)).Hash = List.replicate 32 7
      ∧ finalized (ProcessMessage sampleProto
          ⟨false, false, false, false, false, List.replicate 32 7, false⟩
          ⟨some ⟨"ConfirmedTransaction"⟩, List.replicate 32 7⟩).events = 0)
    ∧ ((sampleProto.unmarshalTransaction (9 :: List.replicate 32 7)).Hash
          ≠ List.replicate 32 7
      ∧ finalized (ProcessMessage sampleProto
          ⟨false, false, false, false, true, List.replicate 32 7, false⟩
          ⟨some ⟨"ConfirmedTransaction"⟩, 9 :: List.replicate 32 7⟩).events = 1) := by
  decide

/-- C8 (amended): for a `ConfirmedTransaction` message and any pending hash, when the write
of `./data_confirmed` succeeds the store's `SavePendingTransaction` is called, once,
exactly when the decoded hash and the pending hash are equal as 32-byte `common.Hash`
values (`BytesToHash`); when these differ the warning is logged and the store is not
called.  When the write fails the process exits before the comparison. -/
theorem C8_confirmed_transaction_finalizes (p : Proto) (env : Env) (m : Message)
    (hcmd : m.Header = some ⟨"ConfirmedTransaction"⟩) :
    (env.writeFileOk = true →
      (finalized (ProcessMessage p env m).events = 1
          ↔ BytesToHash (p.unmarshalTransaction m.Body).Hash = BytesToHash env.pendingHash)
      ∧ (BytesToHash (p.unmarshalTransaction m.Body).Hash ≠ BytesToHash env.pendingHash →
          Event.log .pendingTransactionNotMatch ∈ (ProcessMessage p env m).events
          ∧ finalized (ProcessMessage p env m).events = 0)
      ∧ (ProcessMessage p env m).flow = .returned)
    ∧ (env.writeFileOk = false →
      finalized (ProcessMessage p env m).events = 0
      ∧ (ProcessMessage p env m).flow = .exited) := by
  rw [ProcessMessage_ConfirmedTransaction p env m hcmd]
  unfold handleConfirmedTransaction
  constructor
  · intro hw
    by_cases hh : BytesToHash env.pendingHash = BytesToHash (p.unmarshalTransaction m.Body).Hash
    · simp [hw, hh, finalized]
    · have hh2 : ¬ BytesToHash (p.unmarshalTransaction m.Body).Hash = BytesToHash env.pendingHash :=
        fun h => hh h.symm
      simp [hw, hh, hh2, finalized]
  · intro hw
    simp [hw, finalized]

/-- C8 (amended) at a one-byte body with the write succeeding. -/
theorem C8_confirmed_transaction_finalizes_witness :
    (⟨some ⟨"ConfirmedTransaction"⟩, [7]⟩ : Message).Header = some ⟨"ConfirmedTransaction"⟩
    ∧ (ProcessMessage sampleProto Env.allReady ⟨some ⟨"ConfirmedTransaction"⟩, [7]⟩).flow
        = .returned :=
  ⟨rfl,
   ((C8_confirmed_transaction_finalizes sampleProto Env.allReady
      ⟨some ⟨"ConfirmedTransaction"⟩, [7]⟩ rfl).1 rfl).2.2⟩

end Client
